import Mathlib

/-!
Shallow embedding of `compose/timeparse.py` and `compose/config/serialize.py`
(the duration codec and the multi-schema-version config denormalizer),
together with theorems settling the specification's claims about them.

Machine integers are modelled as `Nat`/`Int`; Python numbers flowing through
`timeparse` are modelled as a tagged `PyNum` (int or float) whose float payload
is an exact rational.  On every input evaluated in this development all
intermediate float values are integers far below 2 ^ 53, where IEEE double
arithmetic is exact, so the rational payload agrees with Python there.
-/

namespace Compose

/-! ### Duration formatter: `serialize_ns_time_value` (serialize.py, lines 110-162)

The Python function first applies `int(value)`; the claims quantify over
non-negative integers, so the embedding takes a `Nat`. -/

/-- The promotion table of `serialize_ns_time_value`:
`[(1000, 'us'), (1000, 'ms'), (1000, 's'), (60, 'm'), (60, 'h')]`. -/
def snsTable : List (Nat × String) :=
  [(1000, "us"), (1000, "ms"), (1000, "s"), (60, "m"), (60, "h")]

/-- The `for factor, unit in table` loop of `serialize_ns_time_value`:
`divmod` the running value by the factor; on remainder zero promote and
continue, otherwise `break` and keep the previous `(value, unit)` pair. -/
def snsLoop : Nat → Nat × String → List (Nat × String) → Nat × String
  | _, result, [] => result
  | value, result, (factor, unit) :: rest =>
    if value % factor = 0 then snsLoop (value / factor) (value / factor, unit) rest
    else result

/-- Function `serialize_ns_time_value` (serialize.py lines 110-162): format a
nanosecond count in the coarsest unit that needs no fractional part. -/
def serialize_ns_time_value (value : Nat) : String :=
  let r := snsLoop value (value, "ns") snsTable
  toString r.1 ++ r.2

/-! ### Scalar presenter: `serialize_string` / `serialize_string_escape_dollar`
(serialize.py, lines 22-39)

The YAML dumper plumbing is external; what the functions decide is whether the
scalar is emitted explicitly quoted (`style='"'`) or plain, and what text is
emitted.  `str.lower` is modelled by `String.toLower` (ASCII): the token list
is pure ASCII and no Unicode character lowercases into the tokens' alphabet,
so the membership test agrees with Python on every string. -/

/-- How a string scalar is emitted: its text and whether it is explicitly
quoted. -/
structure ScalarRepr where
  text : String
  quoted : Bool
deriving DecidableEq, Repr

/-- The boolean-like tokens of serialize.py line 29. -/
def boolLikeTokens : List String :=
  ["y", "n", "yes", "no", "on", "off", "true", "false"]

/-- Function `serialize_string`: quote the scalar exactly when its lower-cased value
is one of the boolean-like tokens. -/
def serialize_string (data : String) : ScalarRepr :=
  if data.toLower ∈ boolLikeTokens then ⟨data, true⟩ else ⟨data, false⟩

/-- Python's `data.replace('$', '$$')`: every literal '$' becomes "$$". -/
def escapeDollar (data : String) : String :=
  String.mk (data.data.flatMap fun c => if c = '$' then ['$', '$'] else [c])

/-- Function `serialize_string_escape_dollar`: rewrite '$' to "$$" first, then apply
the same quoting check. -/
def serialize_string_escape_dollar (data : String) : ScalarRepr :=
  serialize_string (escapeDollar data)

/-! ### Duration parser: `timeparse` (timeparse.py)

`timeparse` matches `\s*(?:(H)h)?(?:(M)m)?(?:(S)s)?(?:(MS)ms)?(?:(US)(?:us|µs))?(?:(NS)ns)?\s*$`
(case-insensitively, each number `\d+\.?\d*|\.\d+`), returns None when the
regex fails or the matched text is whitespace-only, and otherwise sums
`MULTIPLIERS[k] * cast(v)` over the matched groups.  The regex engine's
backtracking on this pattern reduces to: at each component, the numeric token
is the greedy (maximal) match and is unique, and a component whose suffix or
whose continuation fails is skipped — suffix characters are letters while
token characters are digits or '.', so no other token length can succeed.
Python numbers are a tagged union of int and float; the float payload here is
an exact rational (exactly equal to the IEEE double on every input this file
evaluates, where all intermediates are small integers). -/

/-- Python's `\s` on the ASCII range (the embedding restricts inputs to
ASCII whitespace; Python additionally accepts Unicode spaces). -/
def isPySpace (c : Char) : Bool :=
  c == ' ' || c == '\t' || c == '\n' || c == '\r' || c == '\x0b' || c == '\x0c'

/-- A Python number: an `int` or a `float` (payload modelled exactly). -/
inductive PyNum where
  | int : Int → PyNum
  | float : ℚ → PyNum
deriving DecidableEq, Repr

/-- Numeric value of a `PyNum`. -/
def PyNum.toQ : PyNum → ℚ
  | .int n => (n : ℚ)
  | .float q => q

/-- Python `+` on numbers: int + int is an int, any float operand makes the
result a float. -/
def pyAdd : PyNum → PyNum → PyNum
  | .int a, .int b => .int (a + b)
  | a, b => .float (a.toQ + b.toQ)

/-- Python `*` on numbers: int * int is an int, any float operand makes the
result a float. -/
def pyMul : PyNum → PyNum → PyNum
  | .int a, .int b => .int (a * b)
  | a, b => .float (a.toQ * b.toQ)

/-- Greedy match of `(?:\d+\.?\d*|\.\d+)` at the head of the input,
returning the matched token and the rest.  As argued above, for this
pattern the greedy match is the only candidate the engine can accept. -/
def numTok (cs : List Char) : Option (String × List Char) :=
  let ds := cs.takeWhile Char.isDigit
  if ds.isEmpty then
    match cs with
    | '.' :: cs2 =>
      let ds2 := cs2.takeWhile Char.isDigit
      if ds2.isEmpty then none
      else some (String.mk ('.' :: ds2), cs2.drop ds2.length)
    | _ => none
  else
    match cs.drop ds.length with
    | '.' :: cs2 =>
      let ds2 := cs2.takeWhile Char.isDigit
      some (String.mk (ds ++ '.' :: ds2), cs2.drop ds2.length)
    | _ => some (String.mk ds, cs.drop ds.length)

/-- Strip one case-insensitive literal suffix (pattern chars are lowercase;
`Char.toLower` ASCII-lowers the input, matching `re.I` on the unit letters). -/
def stripSuffixCI : List Char → List Char → Option (List Char)
  | [], cs => some cs
  | p :: ps, c :: cs => if p.toLower == c.toLower then stripSuffixCI ps cs else none
  | _ :: _, [] => none

/-- Try the suffix alternatives in the regex's order. -/
def firstSuffix : List (List Char) → List Char → Option (List Char)
  | [], _ => none
  | alt :: alts, cs =>
    match stripSuffixCI alt cs with
    | some rest => some rest
    | none => firstSuffix alts cs

/-- The six optional components in pattern order, each with its `MULTIPLIERS`
entry (all of them Python floats: 60.0*60, 60.0, 1.0, 1.0/1000, 1.0/1000**2,
1.0/1000**3) and its unit-suffix alternatives. -/
def comps : List (ℚ × List (List Char)) :=
  [((3600 : ℚ), [['h']]),
   ((60 : ℚ), [['m']]),
   ((1 : ℚ), [['s']]),
   ((1 : ℚ) / 1000, [['m', 's']]),
   ((1 : ℚ) / 1000000, [['u', 's'], ['µ', 's']]),
   ((1 : ℚ) / 1000000000, [['n', 's']])]

/-- Run the component sequence against the input with the engine's
backtracking (match the component and continue; on failure skip it), then
require `\s*$` on what remains.  Returns the matched (multiplier, token)
pairs in group order. -/
def runComps : List (ℚ × List (List Char)) → List Char → Option (List (ℚ × String))
  | [], cs => if (cs.dropWhile isPySpace).isEmpty then some [] else none
  | (mult, sufs) :: rest, cs =>
    match numTok cs with
    | some (tok, cs1) =>
      match firstSuffix sufs cs1 with
      | some cs2 =>
        match runComps rest cs2 with
        | some l => some ((mult, tok) :: l)
        | none => runComps rest cs
      | none => runComps rest cs
    | none => runComps rest cs

/-- Decimal value of a digit list. -/
def natOfDigits (l : List Char) : Nat :=
  l.foldl (fun a c => 10 * a + (c.toNat - 48)) 0

/-- Exact value of a decimal token (digits, optionally a dot and digits). -/
def decimalTokenVal (l : List Char) : ℚ :=
  let ip := l.takeWhile Char.isDigit
  match l.drop ip.length with
  | '.' :: fp => (natOfDigits ip : ℚ) + (natOfDigits fp : ℚ) / ((10 : ℚ) ^ fp.length)
  | _ => (natOfDigits ip : ℚ)

/-- Function `cast` (timeparse.py lines 97-98): `int(value) if value.isdigit() else
float(value)`. -/
def cast (value : String) : PyNum :=
  if value.data ≠ [] ∧ value.data.all Char.isDigit then
    PyNum.int (natOfDigits value.data)
  else
    PyNum.float (decimalTokenVal value.data)

/-- Function `timeparse` (timeparse.py lines 68-94): None when the anchored regex
fails or matches only whitespace, else `sum(MULTIPLIERS[k] * cast(v) ...)`
(the sum starts from the int 0, in group order). -/
def timeparse (sval : String) : Option PyNum :=
  match runComps comps (sval.data.dropWhile isPySpace) with
  | none => none
  | some [] => none
  | some pairs =>
    some (pairs.foldl (fun acc p => pyAdd acc (pyMul (PyNum.float p.1) (cast p.2)))
      (PyNum.int 0))

/-- A position where no numeric token can start: the end of the input, or a
character that is neither a digit nor a dot. -/
def numBarrier : List Char → Prop
  | [] => True
  | c :: _ => c.isDigit = false ∧ c ≠ '.'

instance decNumBarrier : ∀ cs, Decidable (numBarrier cs)
  | [] => .isTrue trivial
  | _ :: _ => by unfold numBarrier; infer_instance

/-- The unit-suffix spellings with their rank in the strict descending order
h, m, s, ms, us/µs, ns of the pattern (us and µs share a rank). -/
def unitTable : List (List Char × Nat) :=
  [(['h'], 0), (['m'], 1), (['s'], 2), (['m', 's'], 3),
   (['u', 's'], 4), (['µ', 's'], 4), (['n', 's'], 5)]

/-! ### Schema versions

`compose/const.py` (the version constants) is not under `src/`. -/

/-- Modelled from the spec: a SchemaVersion is "an ordered, comparable value
(major.minor semantics) with a total order" (spec §3, §6); `compose.const`'s
`COMPOSEFILE_*` constants are not under src/. -/
structure Version where
  major : Nat
  minor : Nat
deriving DecidableEq, Repr

/-- Modelled from the spec: the strict lexicographic (major, minor) order
driving every version-gated rule. -/
def vlt (a b : Version) : Prop :=
  a.major < b.major ∨ (a.major = b.major ∧ a.minor < b.minor)

instance decVlt (a b : Version) : Decidable (vlt a b) := by
  unfold vlt
  infer_instance

/-- Modelled from the spec: the non-strict order (used for `>=` checks). -/
def vle (a b : Version) : Prop :=
  vlt a b ∨ a = b

instance decVle (a b : Version) : Decidable (vle a b) := by
  unfold vle
  infer_instance

def V1 : Version := ⟨1, 0⟩

def V2_1 : Version := ⟨2, 1⟩

def V2_3 : Version := ⟨2, 3⟩

def V3_0 : Version := ⟨3, 0⟩

def V3_2 : Version := ⟨3, 2⟩

def V3_4 : Version := ⟨3, 4⟩

def V3_5 : Version := ⟨3, 5⟩

/-- Modelled from the spec: `str(version)` — the oldest version was
constructed from the bare string "1", every other one prints
"major.minor". -/
def verStr (v : Version) : String :=
  if v = V1 then "1" else toString v.major ++ "." ++ toString v.minor

/-! ### Service records and their denormalized form

`compose/config/types.py` is not under src/; the complex value types it
provides (restart specs, ports, mounts) are modelled from the spec, which
only requires of them a canonical short-string form. -/

/-- Modelled from the spec: a restart "policy descriptor" with a "canonical
short-string form (policy name, optionally with a retry-count suffix)"
(types.serialize_restart_spec is not under src/). -/
structure RestartSpec where
  policyName : String
  maxRetries : Option Nat
deriving DecidableEq, Repr

/-- Modelled from the spec: the canonical short-string form of a restart
policy. -/
def serialize_restart_spec (r : RestartSpec) : String :=
  match r.maxRetries with
  | some k => r.policyName ++ ":" ++ toString k
  | none => r.policyName

/-- Modelled from the spec: a port-mapping descriptor carrying an optional
explicit external bind IP and a canonical legacy short form
(types.ServicePort is not under src/). -/
structure ServicePort where
  external_ip : Option String
  shortForm : String
deriving DecidableEq, Repr

/-- Modelled from the spec: the legacy short-string form of a port. -/
def ServicePort.legacy_repr (p : ServicePort) : String :=
  p.shortForm

/-- Python truthiness of an optional string (`None` and `''` are falsy). -/
def truthyOptStr : Option String → Bool
  | none => false
  | some s => s != ""

/-- Modelled from the spec: a mount descriptor with its canonical legacy
short string (types.MountSpec is not under src/). -/
structure MountSpec where
  source : Option String
  target : String
  readOnly : Bool
deriving DecidableEq, Repr

/-- Modelled from the spec: the legacy short-string form of a mount. -/
def MountSpec.legacy_repr (m : MountSpec) : String :=
  (match m.source with | some s => s ++ ":" | none => "") ++ m.target ++
    (if m.readOnly then ":ro" else "")

/-- A `volumes` entry: a mount-spec object or an already-short string. -/
inductive VolumeEntry where
  | mount : MountSpec → VolumeEntry
  | plain : String → VolumeEntry
deriving DecidableEq, Repr

/-- A denormalized `ports` entry: the legacy short string or the long-form
object passed through. -/
inductive PortOut where
  | legacy : String → PortOut
  | long : ServicePort → PortOut
deriving DecidableEq, Repr

/-- A healthcheck duration slot: the nanosecond count of the normalized
input, or the formatted string the denormalizer writes over it. -/
inductive HCVal where
  | num : Nat → HCVal
  | str : String → HCVal
deriving DecidableEq, Repr

/-- The healthcheck mapping; `test` stands for the keys the denormalizer
never touches. -/
structure Healthcheck where
  test : Option String
  interval : Option HCVal
  timeout : Option HCVal
  start_period : Option HCVal
deriving DecidableEq, Repr

/-- Formatting one healthcheck duration slot.  Normalized configs carry
numeric nanosecond counts here (spec §3, DurationValue); on a string Python's
`int()` would raise, so the string branch (kept for totality) is unreachable
on well-formed input. -/
def serializeHCVal : HCVal → HCVal
  | .num n => .str (serialize_ns_time_value n)
  | .str s => .str s

/-- The healthcheck block of denormalize_service_dict (lines 184-197): each
of interval/timeout/start_period, when present, is overwritten with its
formatted nanosecond string. -/
def serializeHealthcheck (hc : Healthcheck) : Healthcheck :=
  { hc with
      interval := hc.interval.map serializeHCVal
      timeout := hc.timeout.map serializeHCVal
      start_period := hc.start_period.map serializeHCVal }

/-- A denormalized `depends_on`: the collapsed sorted name list, or the
condition mapping passed through. -/
inductive DependsOut where
  | asMap : List (String × String) → DependsOut
  | asList : List String → DependsOut
deriving DecidableEq, Repr

/-- A normalized service record (spec §3 ServiceRecord): the attributes this
core reads.  `depends_on` maps dependency name to condition. -/
structure ServiceDict where
  name : String
  image : Option String
  restart : Option RestartSpec
  network_mode : Option String
  depends_on : Option (List (String × String))
  healthcheck : Option Healthcheck
  ports : Option (List ServicePort)
  volumes : Option (List VolumeEntry)
deriving DecidableEq, Repr

/-- The presentational service mapping produced by denormalize_service_dict
(`name` is an Option because denormalize_config pops it). -/
structure ServiceOut where
  name : Option String
  image : Option String
  restart : Option String
  network_mode : Option String
  depends_on : Option DependsOut
  healthcheck : Option Healthcheck
  ports : Option (List PortOut)
  volumes : Option (List VolumeEntry)
deriving DecidableEq, Repr

/-- Code-point lexicographic comparison of character lists — Python's `<=`
on strings compares code points position by position. -/
def lexLeB : List Char → List Char → Bool
  | [], _ => true
  | _ :: _, [] => false
  | a :: as, b :: bs => if a < b then true else if a = b then lexLeB as bs else false

/-- Python's `<=` on strings. -/
def pyStrLe (a b : String) : Prop :=
  lexLeB a.data b.data = true

instance decPyStrLe : DecidableRel pyStrLe := fun a b => by
  unfold pyStrLe
  infer_instance

theorem lexLeB_cons (a b : Char) (as bs : List Char) :
    lexLeB (a :: as) (b :: bs) = true ↔ a < b ∨ (a = b ∧ lexLeB as bs = true) := by
  simp only [lexLeB]
  split_ifs with h1 h2
  · simp [h1]
  · simp [h1, h2]
  · simp [h1, h2]

theorem lexLeB_total : ∀ as bs : List Char, lexLeB as bs = true ∨ lexLeB bs as = true
  | [], _ => Or.inl rfl
  | _ :: _, [] => Or.inr rfl
  | a :: as, b :: bs => by
    rcases lt_trichotomy a b with h | h | h
    · exact Or.inl ((lexLeB_cons a b as bs).mpr (Or.inl h))
    · subst h
      rcases lexLeB_total as bs with ih | ih
      · exact Or.inl ((lexLeB_cons a a as bs).mpr (Or.inr ⟨rfl, ih⟩))
      · exact Or.inr ((lexLeB_cons a a bs as).mpr (Or.inr ⟨rfl, ih⟩))
    · exact Or.inr ((lexLeB_cons b a bs as).mpr (Or.inl h))

theorem lexLeB_trans : ∀ as bs cs : List Char,
    lexLeB as bs = true → lexLeB bs cs = true → lexLeB as cs = true
  | [], _, _ => fun _ _ => rfl
  | _ :: _, [], _ => fun h _ => by simp [lexLeB] at h
  | _ :: _, _ :: _, [] => fun _ h => by simp [lexLeB] at h
  | a :: as, b :: bs, c :: cs => fun h1 h2 => by
    rcases (lexLeB_cons a b as bs).mp h1 with hab | ⟨hab, hr1⟩
    · rcases (lexLeB_cons b c bs cs).mp h2 with hbc | ⟨hbc, _⟩
      · exact (lexLeB_cons a c as cs).mpr (Or.inl (lt_trans hab hbc))
      · exact (lexLeB_cons a c as cs).mpr (Or.inl (hbc ▸ hab))
    · rcases (lexLeB_cons b c bs cs).mp h2 with hbc | ⟨hbc, hr2⟩
      · exact (lexLeB_cons a c as cs).mpr (Or.inl (hab ▸ hbc))
      · exact (lexLeB_cons a c as cs).mpr
          (Or.inr ⟨hab.trans hbc, lexLeB_trans as bs cs hr1 hr2⟩)

instance : IsTotal String pyStrLe :=
  ⟨fun a b => lexLeB_total a.data b.data⟩

instance : IsTrans String pyStrLe :=
  ⟨fun a b c => lexLeB_trans a.data b.data c.data⟩

/-- Python's `sorted` on strings: a stable ascending sort under the
code-point lexicographic order. -/
def sortedStrings (l : List String) : List String :=
  List.insertionSort pyStrLe l

/-- Function `denormalize_service_dict` (serialize.py lines 165-209).  Python's
`service_dict.copy()` is a shallow copy: rebinding keys on the copy leaves
the input untouched, but `service_dict['healthcheck'][...] = ...` writes
through the nested mapping shared with the input.  The embedding makes the
mutation explicit: it returns (denormalized dict, state of the input after
the call). -/
def denormalize_service_dict (sd : ServiceDict) (version : Version)
    (image_digest : Option String) : ServiceOut × ServiceDict :=
  let image := match image_digest with
    | some d => if d = "" then sd.image else some d
    | none => sd.image
  let restart := sd.restart.map serialize_restart_spec
  let network_mode :=
    if version = V1 ∧ sd.network_mode = none then some "bridge" else sd.network_mode
  let depends_on := sd.depends_on.map fun m =>
    if vlt version V2_1 ∨ vle V3_0 version then
      DependsOut.asList (sortedStrings (m.map Prod.fst))
    else DependsOut.asMap m
  let healthcheck := sd.healthcheck.map serializeHealthcheck
  let ports := sd.ports.map (List.map fun p =>
    if truthyOptStr p.external_ip = true ∨ vlt version V3_2 then
      PortOut.legacy p.legacy_repr
    else PortOut.long p)
  let volumes :=
    if vlt version V2_3 ∨ (vlt V3_0 version ∧ vlt version V3_2) then
      sd.volumes.map (List.map fun v =>
        match v with
        | .mount m => VolumeEntry.plain m.legacy_repr
        | .plain s => VolumeEntry.plain s)
    else sd.volumes
  (⟨some sd.name, image, restart, network_mode, depends_on, healthcheck, ports, volumes⟩,
   { sd with healthcheck := healthcheck })

/-! ### Resource groups and the config denormalizer -/

/-- The value of a resource entry's `external` attribute: a plain boolean or
one of the richer external-reference forms. -/
inductive ExtVal where
  | boolv : Bool → ExtVal
  | strv : String → ExtVal
  | dictv : List (String × String) → ExtVal
deriving DecidableEq, Repr

/-- Python `bool(...)` truthiness on an external attribute value. -/
def ExtVal.pyBool : ExtVal → Bool
  | .boolv b => b
  | .strv s => s != ""
  | .dictv l => !l.isEmpty

/-- A resource-group entry (spec §3 ResourceGroupEntry): the four
version-gated attributes. -/
structure ResourceConf where
  external_name : Option String
  name : Option String
  external : Option ExtVal
  attachable : Option Bool
deriving DecidableEq, Repr

/-- The four resource-group kinds. -/
inductive ResourceKind where
  | networks
  | volumes
  | secrets
  | configs
deriving DecidableEq, Repr

/-- Function `v3_introduced_name_key` (serialize.py lines 88-91). -/
def v3_introduced_name_key : ResourceKind → Version
  | .volumes => V3_4
  | _ => V3_5

/-- The resource-group loop body of denormalize_config (lines 70-83).  The
group copy is shallow, so each entry mapping is shared between input and
output: this function gives both the output entry and the input entry's
state after the call. -/
def denormalize_resource_conf (version : Version) (key : ResourceKind)
    (conf : ResourceConf) : ResourceConf :=
  let conf1 := { conf with external_name := none }
  let conf2 :=
    if conf1.name.isSome then
      if vlt version V2_1 ∨ (vle V3_0 version ∧ vlt version (v3_introduced_name_key key)) then
        { conf1 with name := none }
      else
        match conf1.external with
        | some e => { conf1 with external := some (ExtVal.boolv e.pyBool) }
        | none => conf1
    else conf1
  if conf2.attachable.isSome ∧ vlt version V3_2 then { conf2 with attachable := none }
  else conf2

/-- A normalized config (spec §3 NormalizedConfig): the schema version, the
service records in order, and the four resource groups as ordered name→entry
mappings. -/
structure NormalizedConfig where
  version : Version
  services : List ServiceDict
  networks : List (String × ResourceConf)
  volumes : List (String × ResourceConf)
  secrets : List (String × ResourceConf)
  configs : List (String × ResourceConf)
deriving DecidableEq, Repr

/-- The presentational document of denormalize_config.  A group is `none`
when the source group is empty (falsy), mirroring the `continue`. -/
structure ConfigOut where
  version : String
  services : List (String × ServiceOut)
  networks : Option (List (String × ResourceConf))
  volumes : Option (List (String × ResourceConf))
  secrets : Option (List (String × ResourceConf))
  configs : Option (List (String × ResourceConf))
deriving DecidableEq, Repr

/-- One resource group of the output: skipped when empty, otherwise every
entry transformed. -/
def denormGroup (version : Version) (key : ResourceKind)
    (g : List (String × ResourceConf)) : Option (List (String × ResourceConf)) :=
  if g.isEmpty then none
  else some (g.map fun p => (p.1, denormalize_resource_conf version key p.2))

/-- The input state of one resource group after the call: the entry mappings
are the same objects as the output's, so present entries are mutated in
place (an empty group is skipped and stays empty either way). -/
def denormGroupAfter (version : Version) (key : ResourceKind)
    (g : List (String × ResourceConf)) : List (String × ResourceConf) :=
  g.map fun p => (p.1, denormalize_resource_conf version key p.2)

/-- The digest passed to each service: `image_digests[service_dict['name']]
if image_digests else None`.  Python indexes the mapping with each service's
name (a missing name would raise KeyError), so a present mapping is modelled
as a total function, and an absent or empty (falsy) one as `none`. -/
def digestFor (image_digests : Option (String → String)) (n : String) : Option String :=
  match image_digests with
  | some f => some (f n)
  | none => none

/-- Function `denormalize_config` (serialize.py lines 51-85), with the same
explicit-state reading: returns (presentational document, state of the input
config after the call). -/
def denormalize_config (config : NormalizedConfig)
    (image_digests : Option (String → String)) : ConfigOut × NormalizedConfig :=
  let denormalized_services :=
    config.services.map fun sd =>
      denormalize_service_dict sd config.version (digestFor image_digests sd.name)
  (⟨if config.version = V1 then verStr V2_1 else verStr config.version,
    denormalized_services.map fun p => (p.1.name.getD "", { p.1 with name := none }),
    denormGroup config.version .networks config.networks,
    denormGroup config.version .volumes config.volumes,
    denormGroup config.version .secrets config.secrets,
    denormGroup config.version .configs config.configs⟩,
   { config with
      services := denormalized_services.map Prod.snd
      networks := denormGroupAfter config.version .networks config.networks
      volumes := denormGroupAfter config.version .volumes config.volumes
      secrets := denormGroupAfter config.version .secrets config.secrets
      configs := denormGroupAfter config.version .configs config.configs })

end Compose

namespace Compose

theorem snsLoop_cons (value : Nat) (result : Nat × String) (factor : Nat)
    (unit : String) (rest : List (Nat × String)) :
    snsLoop value result ((factor, unit) :: rest) =
      if value % factor = 0 then
        snsLoop (value / factor) (value / factor, unit) rest
      else result := rfl

theorem serialize_eq_loop (n : Nat) :
    serialize_ns_time_value n =
      toString (snsLoop n (n, "ns") snsTable).1 ++ (snsLoop n (n, "ns") snsTable).2 := rfl

/-- C2: the formatter follows the fixed promotion chain
ns→us(×1000)→ms(×1000)→s(×1000)→m(×60)→h(×60), promoting while the division
by the next factor leaves remainder zero, stopping at the first nonzero
remainder and returning the previous (value, unit) pair as "{integer}{unit}"
with no fractional part; in particular format(24*60*10^9) = "24m",
format(24*60*60*10^9) = "24h" and format(1000*60*60*10^9) = "1000h", with no
magnitude ceiling on n (the statement is universally quantified over Nat). -/
theorem serialize_ns_promotion_chain (n : Nat) :
    (¬ 1000 ∣ n → serialize_ns_time_value n = toString n ++ "ns") ∧
    (1000 ∣ n → ¬ 1000000 ∣ n →
      serialize_ns_time_value n = toString (n / 1000) ++ "us") ∧
    (1000000 ∣ n → ¬ 1000000000 ∣ n →
      serialize_ns_time_value n = toString (n / 1000000) ++ "ms") ∧
    (1000000000 ∣ n → ¬ 60000000000 ∣ n →
      serialize_ns_time_value n = toString (n / 1000000000) ++ "s") ∧
    (60000000000 ∣ n → ¬ 3600000000000 ∣ n →
      serialize_ns_time_value n = toString (n / 60000000000) ++ "m") ∧
    (3600000000000 ∣ n →
      serialize_ns_time_value n = toString (n / 3600000000000) ++ "h") ∧
    serialize_ns_time_value (24 * 60 * 10 ^ 9) = "24m" ∧
    serialize_ns_time_value (24 * 60 * 60 * 10 ^ 9) = "24h" ∧
    serialize_ns_time_value (1000 * 60 * 60 * 10 ^ 9) = "1000h" := by
  refine ⟨?_, ?_, ?_, ?_, ?_, ?_, by decide, by decide, by decide⟩
  · intro h
    rw [serialize_eq_loop]
    simp only [snsTable]
    rw [snsLoop_cons, if_neg (by omega)]
  · intro h1 h2
    rw [serialize_eq_loop]
    simp only [snsTable]
    rw [snsLoop_cons, if_pos (by omega), snsLoop_cons, if_neg (by omega)]
  · intro h1 h2
    rw [serialize_eq_loop]
    simp only [snsTable]
    rw [snsLoop_cons, if_pos (by omega), snsLoop_cons, if_pos (by omega),
      snsLoop_cons, if_neg (by omega)]
    have e : n / 1000 / 1000 = n / 1000000 := by omega
    rw [e]
  · intro h1 h2
    rw [serialize_eq_loop]
    simp only [snsTable]
    rw [snsLoop_cons, if_pos (by omega), snsLoop_cons, if_pos (by omega),
      snsLoop_cons, if_pos (by omega), snsLoop_cons, if_neg (by omega)]
    have e : n / 1000 / 1000 / 1000 = n / 1000000000 := by omega
    rw [e]
  · intro h1 h2
    rw [serialize_eq_loop]
    simp only [snsTable]
    rw [snsLoop_cons, if_pos (by omega), snsLoop_cons, if_pos (by omega),
      snsLoop_cons, if_pos (by omega), snsLoop_cons, if_pos (by omega),
      snsLoop_cons, if_neg (by omega)]
    have e : n / 1000 / 1000 / 1000 / 60 = n / 60000000000 := by omega
    rw [e]
  · intro h1
    rw [serialize_eq_loop]
    simp only [snsTable]
    rw [snsLoop_cons, if_pos (by omega), snsLoop_cons, if_pos (by omega),
      snsLoop_cons, if_pos (by omega), snsLoop_cons, if_pos (by omega),
      snsLoop_cons, if_pos (by omega)]
    have e : n / 1000 / 1000 / 1000 / 60 / 60 = n / 3600000000000 := by omega
    rw [e]
    rfl

/-- C2 witness: the promotion-chain theorem applied at the concrete input 7
(not divisible by 1000, so no promotion happens). -/
theorem serialize_ns_promotion_chain_witness :
    ¬ (1000 ∣ 7) ∧ serialize_ns_time_value 7 = toString 7 ++ "ns" :=
  ⟨by decide, (serialize_ns_promotion_chain 7).1 (by decide)⟩

/-- C3 counterexample: the claim "serialize_ns_time_value 0 = \"0ns\"" is
false — zero promotes through every table stage (every remainder is zero),
so the formatter returns "0h". -/
theorem serialize_ns_zero_ne_0ns : serialize_ns_time_value 0 ≠ "0ns" := by decide

/-- C3 amended: serialize_ns_time_value applied to 0 returns "0h" (the value
0 is exactly divisible at every promotion step, so it is promoted all the way
to hours). -/
theorem serialize_ns_zero_eq_0h : serialize_ns_time_value 0 = "0h" := by decide

theorem pyMul_float_int (q : ℚ) (n : Int) :
    pyMul (PyNum.float q) (PyNum.int n) = PyNum.float (q * n) := rfl

theorem pyAdd_int_float (a : Int) (q : ℚ) :
    pyAdd (PyNum.int a) (PyNum.float q) = PyNum.float (a + q) := rfl

theorem pyAdd_float_float (p q : ℚ) :
    pyAdd (PyNum.float p) (PyNum.float q) = PyNum.float (p + q) := rfl

/-- C5: at the failing input "1m24s" the code returns the float 84.0, not the
int 84 — every entry of MULTIPLIERS is a float (60.0*60, 60.0, 1.0, ...), so
the sum is a float even though both numeric tokens are all-digit literals cast
to ints.  This contradicts the function's own docstring ("If possible, the
return value will be an int") and its doctest (`>>> timeparse('1m24s')` →
`84`).  The values 60.0*1, 1.0*24 and 0+60.0+24.0 are small integers, where
IEEE double arithmetic is exact, so the exact model agrees with Python. -/
theorem timeparse_1m24s_is_float :
    timeparse "1m24s" = some (PyNum.float 84) ∧ PyNum.float 84 ≠ PyNum.int 84 := by
  constructor
  · have h1 : timeparse "1m24s"
        = some (pyAdd (pyAdd (PyNum.int 0) (pyMul (PyNum.float 60) (PyNum.int 1)))
            (pyMul (PyNum.float 1) (PyNum.int 24))) := rfl
    rw [h1, pyMul_float_int, pyMul_float_int, pyAdd_int_float, pyAdd_float_float]
    norm_num
  · decide

theorem digit_toNat (d : Char) (hd : d.isDigit = true) :
    48 ≤ d.toNat ∧ d.toNat ≤ 57 := by
  simp only [Char.isDigit, Bool.and_eq_true, decide_eq_true_eq, ge_iff_le] at hd
  obtain ⟨h1, h2⟩ := hd
  rw [UInt32.le_def, BitVec.le_def] at h1 h2
  exact ⟨h1, h2⟩

theorem toLower_digit (d : Char) (hd : d.isDigit = true) : d.toLower = d := by
  have h := digit_toNat d hd
  unfold Char.toLower
  rw [if_neg]
  omega

theorem ne_of_toNat_ne (c d : Char) (h : c.toNat ≠ d.toNat) : (c == d) = false := by
  simp only [beq_eq_false_iff_ne, ne_eq]
  intro he
  exact h (by rw [he])

theorem s_vs_digit (d : Char) (hd : d.isDigit = true) :
    ('s'.toLower == d.toLower) = false := by
  have h := digit_toNat d hd
  rw [toLower_digit d hd]
  apply ne_of_toNat_ne
  show 115 ≠ d.toNat
  omega

theorem digit_beq_small (d c₀ : Char) (hd : d.isDigit = true) (hc : c₀.toNat < 48) :
    (d == c₀) = false := by
  have h := digit_toNat d hd
  apply ne_of_toNat_ne
  omega

theorem isPySpace_digit (d : Char) (hd : d.isDigit = true) : isPySpace d = false := by
  simp only [isPySpace, Bool.or_eq_false_iff]
  exact ⟨⟨⟨⟨⟨digit_beq_small d _ hd (by decide), digit_beq_small d _ hd (by decide)⟩,
    digit_beq_small d _ hd (by decide)⟩, digit_beq_small d _ hd (by decide)⟩,
    digit_beq_small d _ hd (by decide)⟩, digit_beq_small d _ hd (by decide)⟩

theorem takeWhile_digits_append (t rest : List Char) (h2 : t.all Char.isDigit = true)
    (hb : numBarrier rest) : (t ++ rest).takeWhile Char.isDigit = t := by
  induction t with
  | nil =>
    cases rest with
    | nil => rfl
    | cons c cs =>
      simp only [List.nil_append]
      exact List.takeWhile_cons_of_neg (by simp [hb.1])
  | cons a t ih =>
    simp only [List.all_cons, Bool.and_eq_true] at h2
    simp only [List.cons_append]
    rw [List.takeWhile_cons_of_pos h2.1, ih h2.2]

theorem numTok_token (t rest : List Char) (h1 : t ≠ []) (h2 : t.all Char.isDigit = true)
    (hb : numBarrier rest) : numTok (t ++ rest) = some (String.mk t, rest) := by
  obtain ⟨a, t', rfl⟩ : ∃ a t', t = a :: t' := by
    cases t with
    | nil => exact absurd rfl h1
    | cons a t' => exact ⟨a, t', rfl⟩
  have htw := takeWhile_digits_append (a :: t') rest h2 hb
  simp only [numTok, htw]
  rw [if_neg (by simp), List.drop_left]
  cases rest with
  | nil => rfl
  | cons c cs =>
    rcases hb with ⟨hb1, hb2⟩
    split
    · next cs2 heq =>
        injection heq with hch _
        exact absurd hch hb2
    · rfl

theorem numTok_barrier (cs : List Char) (hb : numBarrier cs) (hne : cs ≠ []) :
    numTok cs = none := by
  cases cs with
  | nil => exact absurd rfl hne
  | cons c cs' =>
    rcases hb with ⟨hb1, hb2⟩
    have htw : (c :: cs').takeWhile Char.isDigit = [] :=
      List.takeWhile_cons_of_neg (by simp [hb1])
    simp only [numTok, htw, List.isEmpty_nil]
    rw [if_pos trivial]
    split
    · next cs2 heq =>
        injection heq with hch _
        exact absurd hch hb2
    · rfl

theorem takeWhile_digit_nil (l : List Char) (h : ∀ c ∈ l, c.isDigit = false) :
    l.takeWhile Char.isDigit = [] := by
  cases l with
  | nil => rfl
  | cons c cs => exact List.takeWhile_cons_of_neg (by simp [h c (by simp)])

theorem numTok_nodigit (cs : List Char) (h : ∀ c ∈ cs, c.isDigit = false) :
    numTok cs = none := by
  cases cs with
  | nil => rfl
  | cons c cs' =>
    have htw : (c :: cs').takeWhile Char.isDigit = [] := takeWhile_digit_nil _ h
    simp only [numTok, htw, List.isEmpty_nil]
    rw [if_pos trivial]
    split
    · next cs2 heq =>
        injection heq with hch htl
        have hcs2 : cs2.takeWhile Char.isDigit = [] := by
          apply takeWhile_digit_nil
          intro x hx
          exact h x (by rw [← htl] at hx; simp [hx])
        rw [hcs2]
        simp only [List.isEmpty_nil]
        rw [if_pos trivial]
    · rfl

theorem runComps_nil (cs : List Char) :
    runComps [] cs =
      if (cs.dropWhile isPySpace).isEmpty = true then some [] else none := rfl

theorem runComps_skip_nonum (m : ℚ) (sufs : List (List Char))
    (L : List (ℚ × List (List Char))) (cs : List Char) (h : numTok cs = none) :
    runComps ((m, sufs) :: L) cs = runComps L cs := by
  simp only [runComps, h]

theorem runComps_skip_suffix (m : ℚ) (sufs : List (List Char))
    (L : List (ℚ × List (List Char))) (cs : List Char) (tok : String) (cs1 : List Char)
    (h1 : numTok cs = some (tok, cs1)) (h2 : firstSuffix sufs cs1 = none) :
    runComps ((m, sufs) :: L) cs = runComps L cs := by
  simp only [runComps, h1, h2]

theorem runComps_skip_cont (m : ℚ) (sufs : List (List Char))
    (L : List (ℚ × List (List Char))) (cs : List Char) (tok : String)
    (cs1 cs2 : List Char) (h1 : numTok cs = some (tok, cs1))
    (h2 : firstSuffix sufs cs1 = some cs2) (h3 : runComps L cs2 = none) :
    runComps ((m, sufs) :: L) cs = runComps L cs := by
  simp only [runComps, h1, h2, h3]

theorem runComps_stuck (L : List (ℚ × List (List Char))) (cs : List Char)
    (h1 : numTok cs = none) (h2 : (cs.dropWhile isPySpace).isEmpty = false) :
    runComps L cs = none := by
  induction L with
  | nil => rw [runComps_nil, h2]; rfl
  | cons p L ih =>
    rcases p with ⟨m, sufs⟩
    rw [runComps_skip_nonum _ _ _ _ h1]
    exact ih

theorem dropWhile_token_append (t rest : List Char) (h1 : t ≠ [])
    (h2 : t.all Char.isDigit = true) :
    (t ++ rest).dropWhile isPySpace = t ++ rest := by
  obtain ⟨a, t', rfl⟩ : ∃ a t', t = a :: t' := by
    cases t with
    | nil => exact absurd rfl h1
    | cons a t' => exact ⟨a, t', rfl⟩
  have ha : a.isDigit = true := by
    simp only [List.all_cons, Bool.and_eq_true] at h2
    exact h2.1
  simp only [List.cons_append]
  exact List.dropWhile_cons_of_neg (by simp [isPySpace_digit a ha])

theorem isEmpty_token_append (t rest : List Char) (h1 : t ≠ []) :
    (t ++ rest).isEmpty = false := by
  cases t with
  | nil => exact absurd rfl h1
  | cons a t' => rfl

theorem runComps_tail_fail (L : List (ℚ × List (List Char))) (t rest : List Char)
    (h1 : t ≠ []) (h2 : t.all Char.isDigit = true) (hb : numBarrier rest) :
    (∀ p ∈ L, firstSuffix p.2 rest = none) → runComps L (t ++ rest) = none := by
  induction L with
  | nil =>
    intro _
    rw [runComps_nil, dropWhile_token_append _ _ h1 h2, isEmpty_token_append _ _ h1]
    rfl
  | cons p L ih =>
    intro hfail
    rcases p with ⟨m, sufs⟩
    rw [runComps_skip_suffix _ _ _ _ _ _ (numTok_token _ _ h1 h2 hb)
      (hfail (m, sufs) (List.mem_cons_self _ _))]
    exact ih (fun q hq => hfail q (List.mem_cons_of_mem _ hq))

theorem stripSuffixCI_nil (cs : List Char) : stripSuffixCI [] cs = some cs := rfl

theorem stripSuffixCI_cons_pos (p c : Char) (ps cs : List Char)
    (h : (p.toLower == c.toLower) = true) :
    stripSuffixCI (p :: ps) (c :: cs) = stripSuffixCI ps cs := by
  simp only [stripSuffixCI, h]
  rfl

theorem stripSuffixCI_cons_neg (p c : Char) (ps cs : List Char)
    (h : (p.toLower == c.toLower) = false) :
    stripSuffixCI (p :: ps) (c :: cs) = none := by
  simp only [stripSuffixCI, h]
  rfl

theorem firstSuffix_nil (cs : List Char) : firstSuffix [] cs = none := rfl

theorem firstSuffix_cons_none (alt : List Char) (alts : List (List Char))
    (cs : List Char) (h : stripSuffixCI alt cs = none) :
    firstSuffix (alt :: alts) cs = firstSuffix alts cs := by
  simp only [firstSuffix, h]

theorem firstSuffix_cons_some (alt : List Char) (alts : List (List Char))
    (cs r : List Char) (h : stripSuffixCI alt cs = some r) :
    firstSuffix (alt :: alts) cs = some r := by
  simp only [firstSuffix, h]

theorem firstSuffix_single_none (alt : List Char) (cs : List Char)
    (h : stripSuffixCI alt cs = none) : firstSuffix [alt] cs = none := by
  rw [firstSuffix_cons_none _ _ _ h, firstSuffix_nil]

theorem firstSuffix_pair_none (alt₁ alt₂ : List Char) (cs : List Char)
    (ha : stripSuffixCI alt₁ cs = none) (hb : stripSuffixCI alt₂ cs = none) :
    firstSuffix [alt₁, alt₂] cs = none := by
  rw [firstSuffix_cons_none _ _ _ ha, firstSuffix_single_none _ _ hb]

theorem firstSuffix_pair_some₂ (alt₁ alt₂ : List Char) (cs r : List Char)
    (ha : stripSuffixCI alt₁ cs = none) (hb : stripSuffixCI alt₂ cs = some r) :
    firstSuffix [alt₁, alt₂] cs = some r := by
  rw [firstSuffix_cons_none _ _ _ ha]
  exact firstSuffix_cons_some _ _ _ _ hb

theorem timeparse_eq_none (s : String)
    (h : runComps comps (s.data.dropWhile isPySpace) = none) : timeparse s = none := by
  unfold timeparse
  rw [h]

theorem timeparse_nodigit (s : String) (h : ∀ c ∈ s.data, c.isDigit = false) :
    timeparse s = none := by
  by_cases hz : s.data.dropWhile isPySpace = []
  · unfold timeparse
    rw [hz]
    rfl
  · apply timeparse_eq_none
    apply runComps_stuck
    · apply numTok_nodigit
      intro c hc
      exact h c ((List.dropWhile_sublist _).subset hc)
    · rw [List.dropWhile_idempotent]
      cases hcs : s.data.dropWhile isPySpace with
      | nil => exact absurd hcs hz
      | cons a l => rfl

theorem timeparse_some_component (s : String) (v : PyNum) (h : timeparse s = some v) :
    ∃ p ps, runComps comps (s.data.dropWhile isPySpace) = some (p :: ps) := by
  unfold timeparse at h
  cases hr : runComps comps (s.data.dropWhile isPySpace) with
  | none =>
    rw [hr] at h
    simp at h
  | some l =>
    cases l with
    | nil =>
      rw [hr] at h
      simp at h
    | cons p ps => exact ⟨p, ps, rfl⟩

theorem wrongOrder_m (sj t₁ t₂ : List Char)
    (h1 : t₁ ≠ []) (h2 : t₁.all Char.isDigit = true)
    (h3 : t₂ ≠ []) (h4 : t₂.all Char.isDigit = true)
    (hbj : numBarrier sj)
    (hfs : firstSuffix [['s']] sj = none)
    (hfms : firstSuffix [['m', 's']] sj = none)
    (hfus : firstSuffix [['u', 's'], ['µ', 's']] sj = none)
    (hfns : firstSuffix [['n', 's']] sj = none) :
    timeparse (String.mk (t₁ ++ ['m'] ++ t₂ ++ sj)) = none := by
  have hassoc : t₁ ++ ['m'] ++ t₂ ++ sj = t₁ ++ ('m' :: (t₂ ++ sj)) := by simp
  rw [hassoc]
  apply timeparse_eq_none
  show runComps comps ((t₁ ++ ('m' :: (t₂ ++ sj))).dropWhile isPySpace) = none
  rw [dropWhile_token_append _ _ h1 h2]
  have hnum : numTok (t₁ ++ ('m' :: (t₂ ++ sj)))
      = some (String.mk t₁, 'm' :: (t₂ ++ sj)) :=
    numTok_token _ _ h1 h2 ⟨by decide, by decide⟩
  obtain ⟨d, t₂', rfl⟩ : ∃ d t₂', t₂ = d :: t₂' := by
    cases t₂ with
    | nil => exact absurd rfl h3
    | cons d t₂' => exact ⟨d, t₂', rfl⟩
  have hd : d.isDigit = true := by
    simp only [List.all_cons, Bool.and_eq_true] at h4
    exact h4.1
  simp only [comps]
  rw [runComps_skip_suffix _ _ _ _ _ _ hnum
    (firstSuffix_single_none _ _ (stripSuffixCI_cons_neg _ _ _ _ (by decide)))]
  rw [runComps_skip_cont _ _ _ _ _ _ _ hnum
    (firstSuffix_cons_some _ _ _ _
      (by rw [stripSuffixCI_cons_pos _ _ _ _ (by decide)]; rfl))
    (runComps_tail_fail _ _ _ (List.cons_ne_nil d t₂') h4 hbj (by
      intro q hq
      simp only [List.mem_cons, List.not_mem_nil, or_false] at hq
      rcases hq with rfl | rfl | rfl | rfl
      exacts [hfs, hfms, hfus, hfns]))]
  rw [runComps_skip_suffix _ _ _ _ _ _ hnum
    (firstSuffix_single_none _ _ (stripSuffixCI_cons_neg _ _ _ _ (by decide)))]
  rw [runComps_skip_suffix _ _ _ _ _ _ hnum
    (firstSuffix_single_none _ _ (by
      rw [stripSuffixCI_cons_pos _ _ _ _ (by decide)]
      exact stripSuffixCI_cons_neg _ _ _ _ (s_vs_digit d hd)))]
  rw [runComps_skip_suffix _ _ _ _ _ _ hnum
    (firstSuffix_pair_none _ _ _ (stripSuffixCI_cons_neg _ _ _ _ (by decide))
      (stripSuffixCI_cons_neg _ _ _ _ (by decide)))]
  rw [runComps_skip_suffix _ _ _ _ _ _ hnum
    (firstSuffix_single_none _ _ (stripSuffixCI_cons_neg _ _ _ _ (by decide)))]
  rw [runComps_nil, dropWhile_token_append _ _ h1 h2, isEmpty_token_append _ _ h1]
  rfl

theorem wrongOrder_s (sj t₁ t₂ : List Char)
    (h1 : t₁ ≠ []) (h2 : t₁.all Char.isDigit = true)
    (h3 : t₂ ≠ []) (h4 : t₂.all Char.isDigit = true)
    (hbj : numBarrier sj)
    (hfms : firstSuffix [['m', 's']] sj = none)
    (hfus : firstSuffix [['u', 's'], ['µ', 's']] sj = none)
    (hfns : firstSuffix [['n', 's']] sj = none) :
    timeparse (String.mk (t₁ ++ ['s'] ++ t₂ ++ sj)) = none := by
  have hassoc : t₁ ++ ['s'] ++ t₂ ++ sj = t₁ ++ ('s' :: (t₂ ++ sj)) := by simp
  rw [hassoc]
  apply timeparse_eq_none
  show runComps comps ((t₁ ++ ('s' :: (t₂ ++ sj))).dropWhile isPySpace) = none
  rw [dropWhile_token_append _ _ h1 h2]
  have hnum : numTok (t₁ ++ ('s' :: (t₂ ++ sj)))
      = some (String.mk t₁, 's' :: (t₂ ++ sj)) :=
    numTok_token _ _ h1 h2 ⟨by decide, by decide⟩
  simp only [comps]
  rw [runComps_skip_suffix _ _ _ _ _ _ hnum
    (firstSuffix_single_none _ _ (stripSuffixCI_cons_neg _ _ _ _ (by decide)))]
  rw [runComps_skip_suffix _ _ _ _ _ _ hnum
    (firstSuffix_single_none _ _ (stripSuffixCI_cons_neg _ _ _ _ (by decide)))]
  rw [runComps_skip_cont _ _ _ _ _ _ _ hnum
    (firstSuffix_cons_some _ _ _ _
      (by rw [stripSuffixCI_cons_pos _ _ _ _ (by decide)]; rfl))
    (runComps_tail_fail _ _ _ h3 h4 hbj (by
      intro q hq
      simp only [List.mem_cons, List.not_mem_nil, or_false] at hq
      rcases hq with rfl | rfl | rfl
      exacts [hfms, hfus, hfns]))]
  rw [runComps_skip_suffix _ _ _ _ _ _ hnum
    (firstSuffix_single_none _ _ (stripSuffixCI_cons_neg _ _ _ _ (by decide)))]
  rw [runComps_skip_suffix _ _ _ _ _ _ hnum
    (firstSuffix_pair_none _ _ _ (stripSuffixCI_cons_neg _ _ _ _ (by decide))
      (stripSuffixCI_cons_neg _ _ _ _ (by decide)))]
  rw [runComps_skip_suffix _ _ _ _ _ _ hnum
    (firstSuffix_single_none _ _ (stripSuffixCI_cons_neg _ _ _ _ (by decide)))]
  rw [runComps_nil, dropWhile_token_append _ _ h1 h2, isEmpty_token_append _ _ h1]
  rfl

theorem wrongOrder_ms (sj t₁ t₂ : List Char)
    (h1 : t₁ ≠ []) (h2 : t₁.all Char.isDigit = true)
    (h3 : t₂ ≠ []) (h4 : t₂.all Char.isDigit = true)
    (hbj : numBarrier sj)
    (hfus : firstSuffix [['u', 's'], ['µ', 's']] sj = none)
    (hfns : firstSuffix [['n', 's']] sj = none) :
    timeparse (String.mk (t₁ ++ ['m', 's'] ++ t₂ ++ sj)) = none := by
  have hassoc : t₁ ++ ['m', 's'] ++ t₂ ++ sj = t₁ ++ ('m' :: 's' :: (t₂ ++ sj)) := by
    simp
  rw [hassoc]
  apply timeparse_eq_none
  show runComps comps ((t₁ ++ ('m' :: 's' :: (t₂ ++ sj))).dropWhile isPySpace) = none
  rw [dropWhile_token_append _ _ h1 h2]
  have hnum : numTok (t₁ ++ ('m' :: 's' :: (t₂ ++ sj)))
      = some (String.mk t₁, 'm' :: 's' :: (t₂ ++ sj)) :=
    numTok_token _ _ h1 h2 ⟨by decide, by decide⟩
  simp only [comps]
  rw [runComps_skip_suffix _ _ _ _ _ _ hnum
    (firstSuffix_single_none _ _ (stripSuffixCI_cons_neg _ _ _ _ (by decide)))]
  rw [runComps_skip_cont _ _ _ _ _ _ _ hnum
    (firstSuffix_cons_some _ _ _ _
      (by rw [stripSuffixCI_cons_pos _ _ _ _ (by decide)]; rfl))
    (runComps_stuck _ _ (numTok_barrier ('s' :: (t₂ ++ sj)) ⟨by decide, by decide⟩ (by simp))
      (by rw [List.dropWhile_cons_of_neg (by decide)]; rfl))]
  rw [runComps_skip_suffix _ _ _ _ _ _ hnum
    (firstSuffix_single_none _ _ (stripSuffixCI_cons_neg _ _ _ _ (by decide)))]
  rw [runComps_skip_cont _ _ _ _ _ _ _ hnum
    (firstSuffix_cons_some _ _ _ _
      (by rw [stripSuffixCI_cons_pos _ _ _ _ (by decide),
        stripSuffixCI_cons_pos _ _ _ _ (by decide)]; rfl))
    (runComps_tail_fail _ _ _ h3 h4 hbj (by
      intro q hq
      simp only [List.mem_cons, List.not_mem_nil, or_false] at hq
      rcases hq with rfl | rfl
      exacts [hfus, hfns]))]
  rw [runComps_skip_suffix _ _ _ _ _ _ hnum
    (firstSuffix_pair_none _ _ _ (stripSuffixCI_cons_neg _ _ _ _ (by decide))
      (stripSuffixCI_cons_neg _ _ _ _ (by decide)))]
  rw [runComps_skip_suffix _ _ _ _ _ _ hnum
    (firstSuffix_single_none _ _ (stripSuffixCI_cons_neg _ _ _ _ (by decide)))]
  rw [runComps_nil, dropWhile_token_append _ _ h1 h2, isEmpty_token_append _ _ h1]
  rfl

theorem wrongOrder_us (sj t₁ t₂ : List Char)
    (h1 : t₁ ≠ []) (h2 : t₁.all Char.isDigit = true)
    (h3 : t₂ ≠ []) (h4 : t₂.all Char.isDigit = true)
    (hbj : numBarrier sj)
    (hfns : firstSuffix [['n', 's']] sj = none) :
    timeparse (String.mk (t₁ ++ ['u', 's'] ++ t₂ ++ sj)) = none := by
  have hassoc : t₁ ++ ['u', 's'] ++ t₂ ++ sj = t₁ ++ ('u' :: 's' :: (t₂ ++ sj)) := by
    simp
  rw [hassoc]
  apply timeparse_eq_none
  show runComps comps ((t₁ ++ ('u' :: 's' :: (t₂ ++ sj))).dropWhile isPySpace) = none
  rw [dropWhile_token_append _ _ h1 h2]
  have hnum : numTok (t₁ ++ ('u' :: 's' :: (t₂ ++ sj)))
      = some (String.mk t₁, 'u' :: 's' :: (t₂ ++ sj)) :=
    numTok_token _ _ h1 h2 ⟨by decide, by decide⟩
  simp only [comps]
  rw [runComps_skip_suffix _ _ _ _ _ _ hnum
    (firstSuffix_single_none _ _ (stripSuffixCI_cons_neg _ _ _ _ (by decide)))]
  rw [runComps_skip_suffix _ _ _ _ _ _ hnum
    (firstSuffix_single_none _ _ (stripSuffixCI_cons_neg _ _ _ _ (by decide)))]
  rw [runComps_skip_suffix _ _ _ _ _ _ hnum
    (firstSuffix_single_none _ _ (stripSuffixCI_cons_neg _ _ _ _ (by decide)))]
  rw [runComps_skip_suffix _ _ _ _ _ _ hnum
    (firstSuffix_single_none _ _ (stripSuffixCI_cons_neg _ _ _ _ (by decide)))]
  rw [runComps_skip_cont _ _ _ _ _ _ _ hnum
    (firstSuffix_cons_some _ _ _ _
      (by rw [stripSuffixCI_cons_pos _ _ _ _ (by decide),
        stripSuffixCI_cons_pos _ _ _ _ (by decide)]; rfl))
    (runComps_tail_fail _ _ _ h3 h4 hbj (by
      intro q hq
      simp only [List.mem_cons, List.not_mem_nil, or_false] at hq
      rcases hq with rfl
      exact hfns))]
  rw [runComps_skip_suffix _ _ _ _ _ _ hnum
    (firstSuffix_single_none _ _ (stripSuffixCI_cons_neg _ _ _ _ (by decide)))]
  rw [runComps_nil, dropWhile_token_append _ _ h1 h2, isEmpty_token_append _ _ h1]
  rfl

theorem wrongOrder_micro (sj t₁ t₂ : List Char)
    (h1 : t₁ ≠ []) (h2 : t₁.all Char.isDigit = true)
    (h3 : t₂ ≠ []) (h4 : t₂.all Char.isDigit = true)
    (hbj : numBarrier sj)
    (hfns : firstSuffix [['n', 's']] sj = none) :
    timeparse (String.mk (t₁ ++ ['µ', 's'] ++ t₂ ++ sj)) = none := by
  have hassoc : t₁ ++ ['µ', 's'] ++ t₂ ++ sj = t₁ ++ ('µ' :: 's' :: (t₂ ++ sj)) := by
    simp
  rw [hassoc]
  apply timeparse_eq_none
  show runComps comps ((t₁ ++ ('µ' :: 's' :: (t₂ ++ sj))).dropWhile isPySpace) = none
  rw [dropWhile_token_append _ _ h1 h2]
  have hnum : numTok (t₁ ++ ('µ' :: 's' :: (t₂ ++ sj)))
      = some (String.mk t₁, 'µ' :: 's' :: (t₂ ++ sj)) :=
    numTok_token _ _ h1 h2 ⟨by decide, by decide⟩
  simp only [comps]
  rw [runComps_skip_suffix _ _ _ _ _ _ hnum
    (firstSuffix_single_none _ _ (stripSuffixCI_cons_neg _ _ _ _ (by decide)))]
  rw [runComps_skip_suffix _ _ _ _ _ _ hnum
    (firstSuffix_single_none _ _ (stripSuffixCI_cons_neg _ _ _ _ (by decide)))]
  rw [runComps_skip_suffix _ _ _ _ _ _ hnum
    (firstSuffix_single_none _ _ (stripSuffixCI_cons_neg _ _ _ _ (by decide)))]
  rw [runComps_skip_suffix _ _ _ _ _ _ hnum
    (firstSuffix_single_none _ _ (stripSuffixCI_cons_neg _ _ _ _ (by decide)))]
  rw [runComps_skip_cont _ _ _ _ _ _ _ hnum
    (firstSuffix_pair_some₂ _ _ _ _ (stripSuffixCI_cons_neg _ _ _ _ (by decide))
      (by rw [stripSuffixCI_cons_pos _ _ _ _ (by decide),
        stripSuffixCI_cons_pos _ _ _ _ (by decide)]; rfl))
    (runComps_tail_fail _ _ _ h3 h4 hbj (by
      intro q hq
      simp only [List.mem_cons, List.not_mem_nil, or_false] at hq
      rcases hq with rfl
      exact hfns))]
  rw [runComps_skip_suffix _ _ _ _ _ _ hnum
    (firstSuffix_single_none _ _ (stripSuffixCI_cons_neg _ _ _ _ (by decide)))]
  rw [runComps_nil, dropWhile_token_append _ _ h1 h2, isEmpty_token_append _ _ h1]
  rfl

theorem wrongOrder_ns (sj t₁ t₂ : List Char)
    (h1 : t₁ ≠ []) (h2 : t₁.all Char.isDigit = true)
    (h3 : t₂ ≠ []) (h4 : t₂.all Char.isDigit = true)
    (hbj : numBarrier sj) :
    timeparse (String.mk (t₁ ++ ['n', 's'] ++ t₂ ++ sj)) = none := by
  have hassoc : t₁ ++ ['n', 's'] ++ t₂ ++ sj = t₁ ++ ('n' :: 's' :: (t₂ ++ sj)) := by
    simp
  rw [hassoc]
  apply timeparse_eq_none
  show runComps comps ((t₁ ++ ('n' :: 's' :: (t₂ ++ sj))).dropWhile isPySpace) = none
  rw [dropWhile_token_append _ _ h1 h2]
  have hnum : numTok (t₁ ++ ('n' :: 's' :: (t₂ ++ sj)))
      = some (String.mk t₁, 'n' :: 's' :: (t₂ ++ sj)) :=
    numTok_token _ _ h1 h2 ⟨by decide, by decide⟩
  simp only [comps]
  rw [runComps_skip_suffix _ _ _ _ _ _ hnum
    (firstSuffix_single_none _ _ (stripSuffixCI_cons_neg _ _ _ _ (by decide)))]
  rw [runComps_skip_suffix _ _ _ _ _ _ hnum
    (firstSuffix_single_none _ _ (stripSuffixCI_cons_neg _ _ _ _ (by decide)))]
  rw [runComps_skip_suffix _ _ _ _ _ _ hnum
    (firstSuffix_single_none _ _ (stripSuffixCI_cons_neg _ _ _ _ (by decide)))]
  rw [runComps_skip_suffix _ _ _ _ _ _ hnum
    (firstSuffix_single_none _ _ (stripSuffixCI_cons_neg _ _ _ _ (by decide)))]
  rw [runComps_skip_suffix _ _ _ _ _ _ hnum
    (firstSuffix_pair_none _ _ _ (stripSuffixCI_cons_neg _ _ _ _ (by decide))
      (stripSuffixCI_cons_neg _ _ _ _ (by decide)))]
  rw [runComps_skip_cont _ _ _ _ _ _ _ hnum
    (firstSuffix_cons_some _ _ _ _
      (by rw [stripSuffixCI_cons_pos _ _ _ _ (by decide),
        stripSuffixCI_cons_pos _ _ _ _ (by decide)]; rfl))
    (runComps_tail_fail _ _ _ h3 h4 hbj (by
      intro q hq
      exact absurd hq (List.not_mem_nil q)))]
  rw [runComps_nil, dropWhile_token_append _ _ h1 h2, isEmpty_token_append _ _ h1]
  rfl

set_option maxHeartbeats 1000000 in
/-- C6: timeparse yields an absent result (None; the embedding is a total
function, so no exception can be raised) on the empty string; on every
whitespace-only string; on every string containing no digit, where no
component can match a numeric token ("otherstring" is such a string); and
whenever it does return a value, at least one component matched.  Components
out of the strict descending order h, m, s, ms, us/µs, ns fail universally:
for every two unit suffixes with the strictly finer one first (ranks from
`unitTable`, where a larger rank is a finer unit) and every pair of nonempty
all-digit tokens, the concatenation token-suffix-token-suffix parses to None
("5s3h" is the s-before-h instance). -/
theorem timeparse_failure_behaviour :
    timeparse "" = none ∧
    (∀ s : String, s.data.all isPySpace = true → timeparse s = none) ∧
    (∀ s : String, (∀ c ∈ s.data, c.isDigit = false) → timeparse s = none) ∧
    (∀ s v, timeparse s = some v →
      ∃ p ps, runComps comps (s.data.dropWhile isPySpace) = some (p :: ps)) ∧
    (∀ p ∈ unitTable, ∀ q ∈ unitTable, q.2 < p.2 →
      ∀ t₁ t₂ : List Char, t₁ ≠ [] → t₁.all Char.isDigit = true →
        t₂ ≠ [] → t₂.all Char.isDigit = true →
        timeparse (String.mk (t₁ ++ p.1 ++ t₂ ++ q.1)) = none) ∧
    timeparse "5s3h" = none ∧
    timeparse "otherstring" = none := by
  refine ⟨by decide, ?_, timeparse_nodigit, timeparse_some_component, ?_,
    by decide, by decide⟩
  · intro s h
    have hwd : s.data.dropWhile isPySpace = [] := by
      rw [List.dropWhile_eq_nil_iff]
      intro x hx
      exact (List.all_eq_true.mp h) x hx
    unfold timeparse
    rw [hwd]
    rfl
  · intro p hp q hq hlt t₁ t₂ h1 h2 h3 h4
    simp only [unitTable, List.mem_cons, List.not_mem_nil, or_false] at hp hq
    rcases hp with rfl | rfl | rfl | rfl | rfl | rfl | rfl
    · rcases hq with rfl | rfl | rfl | rfl | rfl | rfl | rfl <;>
        exact absurd hlt (by decide)
    · rcases hq with rfl | rfl | rfl | rfl | rfl | rfl | rfl <;>
        first
          | exact absurd hlt (by decide)
          | exact wrongOrder_m _ t₁ t₂ h1 h2 h3 h4 (by decide) (by decide)
              (by decide) (by decide) (by decide)
    · rcases hq with rfl | rfl | rfl | rfl | rfl | rfl | rfl <;>
        first
          | exact absurd hlt (by decide)
          | exact wrongOrder_s _ t₁ t₂ h1 h2 h3 h4 (by decide) (by decide)
              (by decide) (by decide)
    · rcases hq with rfl | rfl | rfl | rfl | rfl | rfl | rfl <;>
        first
          | exact absurd hlt (by decide)
          | exact wrongOrder_ms _ t₁ t₂ h1 h2 h3 h4 (by decide) (by decide)
              (by decide)
    · rcases hq with rfl | rfl | rfl | rfl | rfl | rfl | rfl <;>
        first
          | exact absurd hlt (by decide)
          | exact wrongOrder_us _ t₁ t₂ h1 h2 h3 h4 (by decide) (by decide)
    · rcases hq with rfl | rfl | rfl | rfl | rfl | rfl | rfl <;>
        first
          | exact absurd hlt (by decide)
          | exact wrongOrder_micro _ t₁ t₂ h1 h2 h3 h4 (by decide) (by decide)
    · rcases hq with rfl | rfl | rfl | rfl | rfl | rfl | rfl <;>
        first
          | exact absurd hlt (by decide)
          | exact wrongOrder_ns _ t₁ t₂ h1 h2 h3 h4 (by decide)

/-- C6 witness: the failure-behaviour theorem applied at concrete inputs —
the whitespace-only string "  ", and the out-of-order family at the pair
(s, h) with tokens 5 and 3, which is exactly the string "5s3h". -/
theorem timeparse_failure_witness :
    "  ".data.all isPySpace = true ∧ timeparse "  " = none ∧
    timeparse (String.mk (['5'] ++ ['s'] ++ ['3'] ++ ['h'])) = none :=
  ⟨by decide, timeparse_failure_behaviour.2.1 "  " (by decide),
   timeparse_failure_behaviour.2.2.2.2.1 (['s'], 2) (by decide) (['h'], 0)
     (by decide) (by decide) ['5'] ['3'] (by decide) (by decide) (by decide)
     (by decide)⟩

/-- C7: a string scalar is emitted as an explicitly quoted string exactly
when its lower-cased value is one of y, n, yes, no, on, off, true, false
(otherwise plain, the text itself unchanged); and the dollar-escaping mode
first rewrites every literal '$' to "$$" (a character-wise rewriting that is
the identity away from '$') and then applies the same quoting check. -/
theorem serialize_string_spec (s t : String) (c : Char) :
    (serialize_string s).text = s ∧
    ((serialize_string s).quoted = true ↔ s.toLower ∈ boolLikeTokens) ∧
    serialize_string_escape_dollar s = serialize_string (escapeDollar s) ∧
    escapeDollar (s ++ t) = escapeDollar s ++ escapeDollar t ∧
    escapeDollar (String.singleton '$') = "$$" ∧
    (c ≠ '$' → escapeDollar (String.singleton c) = String.singleton c) := by
  refine ⟨?_, ?_, rfl, ?_, by decide, ?_⟩
  · unfold serialize_string
    split <;> rfl
  · unfold serialize_string
    split
    · simp [*]
    · simp [*]
  · apply String.ext
    simp [escapeDollar, String.data_append, List.flatMap_append]
  · intro h
    apply String.ext
    simp [escapeDollar, String.singleton, String.data_push, h]

/-- C7 witness: the scalar-presentation theorem applied at the concrete
inputs "True", "x", 'a', discharging the hypothesis 'a' ≠ '$'. -/
theorem serialize_string_spec_witness :
    escapeDollar (String.singleton 'a') = String.singleton 'a' :=
  (serialize_string_spec "True" "x" 'a').2.2.2.2.2 (by decide)

/-- A service record whose healthcheck interval is the nanosecond count
60000000000 (one minute). -/
def sdMut : ServiceDict :=
  ⟨"web", none, none, none, none, some ⟨none, some (.num 60000000000), none, none⟩,
   none, none⟩

/-- A config holding `sdMut` and a network entry carrying `external_name`. -/
def cfgMut : NormalizedConfig :=
  ⟨V3_0, [sdMut], [("net", ⟨some "ext", none, none, none⟩)], [], [], []⟩

/-- C4 counterexample: the inputs are NOT left entirely unchanged.  The
shallow `copy()` shares the nested healthcheck mapping, so after the call the
input's `healthcheck['interval']` holds the formatted string "1m" instead of
the number; and `denormalize_config`'s shallow group copy lets
`del conf['external_name']` mutate the input's network entry. -/
theorem denormalize_mutates_inputs :
    (denormalize_service_dict sdMut V3_0 none).2 ≠ sdMut ∧
    (denormalize_config cfgMut none).2 ≠ cfgMut := by
  decide

/-- C4 amended: the top level of each input mapping is protected by the
copy — every top-level attribute of the service record other than the shared
healthcheck mapping reads back unchanged, and a record with no healthcheck is
fully unchanged — but the nested healthcheck mapping is mutated in place
(its duration slots become formatted strings), and denormalize_config
likewise mutates every resource-group entry in place while leaving the
version and the service list structure intact. -/
theorem denormalize_mutation_extent (sd : ServiceDict) (v : Version)
    (d : Option String) (cfg : NormalizedConfig) (ds : Option (String → String)) :
    ((denormalize_service_dict sd v d).2.name = sd.name ∧
     (denormalize_service_dict sd v d).2.image = sd.image ∧
     (denormalize_service_dict sd v d).2.restart = sd.restart ∧
     (denormalize_service_dict sd v d).2.network_mode = sd.network_mode ∧
     (denormalize_service_dict sd v d).2.depends_on = sd.depends_on ∧
     (denormalize_service_dict sd v d).2.ports = sd.ports ∧
     (denormalize_service_dict sd v d).2.volumes = sd.volumes ∧
     (denormalize_service_dict sd v d).2.healthcheck
       = sd.healthcheck.map serializeHealthcheck) ∧
    (sd.healthcheck = none → (denormalize_service_dict sd v d).2 = sd) ∧
    ((denormalize_config cfg ds).2.version = cfg.version ∧
     (denormalize_config cfg ds).2.services
       = cfg.services.map
           (fun s => { s with healthcheck := s.healthcheck.map serializeHealthcheck }) ∧
     (denormalize_config cfg ds).2.networks
       = cfg.networks.map
           (fun p => (p.1, denormalize_resource_conf cfg.version .networks p.2)) ∧
     (denormalize_config cfg ds).2.volumes
       = cfg.volumes.map
           (fun p => (p.1, denormalize_resource_conf cfg.version .volumes p.2)) ∧
     (denormalize_config cfg ds).2.secrets
       = cfg.secrets.map
           (fun p => (p.1, denormalize_resource_conf cfg.version .secrets p.2)) ∧
     (denormalize_config cfg ds).2.configs
       = cfg.configs.map
           (fun p => (p.1, denormalize_resource_conf cfg.version .configs p.2))) := by
  refine ⟨⟨rfl, rfl, rfl, rfl, rfl, rfl, rfl, rfl⟩, ?_, rfl, ?_, rfl, rfl, rfl, rfl⟩
  · intro h
    rcases sd with ⟨n, i, r, nm, dep, hc, po, vo⟩
    cases hc with
    | none => rfl
    | some hcv => cases h
  · show (cfg.services.map fun s =>
        denormalize_service_dict s cfg.version _).map Prod.snd = _
    rw [List.map_map]
    rfl

/-- A service record with no healthcheck. -/
def sdNoHC : ServiceDict := ⟨"db", none, none, none, none, none, none, none⟩

/-- C4 amended witness: the mutation-extent theorem applied at the concrete
healthcheck-free record `sdNoHC`, whose after-state equals the input. -/
theorem denormalize_mutation_extent_witness :
    (denormalize_service_dict sdNoHC V2_1 none).2 = sdNoHC :=
  (denormalize_mutation_extent sdNoHC V2_1 none ⟨V2_1, [], [], [], [], []⟩ none).2.1 rfl

/-- C8: at the oldest supported version the output's version header is the
next version's string "2.1" (never the oldest version's own string "1"),
every output service carries a network_mode, and a service lacking an
explicit network_mode receives "bridge"; at every other version the header
is that version's own string unchanged. -/
theorem v1_denormalization (cfg : NormalizedConfig) (ds : Option (String → String))
    (sd : ServiceDict) (d : Option String) :
    (cfg.version = V1 →
      (denormalize_config cfg ds).1.version = verStr V2_1 ∧
      (denormalize_config cfg ds).1.version ≠ verStr V1 ∧
      ∀ p ∈ (denormalize_config cfg ds).1.services, p.2.network_mode ≠ none) ∧
    (cfg.version ≠ V1 → (denormalize_config cfg ds).1.version = verStr cfg.version) ∧
    (sd.network_mode = none →
      (denormalize_service_dict sd V1 d).1.network_mode = some "bridge") := by
  have hv : (denormalize_config cfg ds).1.version
      = if cfg.version = V1 then verStr V2_1 else verStr cfg.version := rfl
  refine ⟨?_, ?_, ?_⟩
  · intro h
    refine ⟨by rw [hv, if_pos h], by rw [hv, if_pos h]; decide, ?_⟩
    intro p hp
    have hs : (denormalize_config cfg ds).1.services
        = (cfg.services.map fun s =>
            denormalize_service_dict s cfg.version (digestFor ds s.name)).map
          (fun q => (q.1.name.getD "", { q.1 with name := none })) := rfl
    rw [hs, List.map_map] at hp
    obtain ⟨s, _, rfl⟩ := List.mem_map.mp hp
    show ((denormalize_service_dict s cfg.version (digestFor ds s.name)).1).network_mode ≠ none
    have hn : (denormalize_service_dict s cfg.version (digestFor ds s.name)).1.network_mode
        = if cfg.version = V1 ∧ s.network_mode = none then some "bridge"
          else s.network_mode := rfl
    rw [hn]
    split_ifs with hcond
    · simp
    · cases hnm : s.network_mode with
      | none => exact absurd ⟨h, hnm⟩ hcond
      | some m => simp [hnm]
  · intro h
    rw [hv, if_neg h]
  · intro h
    have hn : (denormalize_service_dict sd V1 d).1.network_mode
        = if V1 = V1 ∧ sd.network_mode = none then some "bridge"
          else sd.network_mode := rfl
    rw [hn, if_pos ⟨rfl, h⟩]

/-- A one-service config at the oldest version, the service lacking an
explicit network_mode. -/
def cfgV1 : NormalizedConfig :=
  ⟨V1, [⟨"w", none, none, none, none, none, none, none⟩], [], [], [], []⟩

/-- C8 witness: the oldest-version theorem applied at the concrete config
`cfgV1`. -/
theorem v1_denormalization_witness :
    (denormalize_config cfgV1 none).1.version = verStr V2_1 ∧
    (denormalize_service_dict ⟨"w", none, none, none, none, none, none, none⟩
      V1 none).1.network_mode = some "bridge" :=
  ⟨((v1_denormalization cfgV1 none
      ⟨"w", none, none, none, none, none, none, none⟩ none).1 rfl).1,
   (v1_denormalization cfgV1 none
      ⟨"w", none, none, none, none, none, none, none⟩ none).2.2 rfl⟩

/-- C9: when the target version predates V2_1 (condition-qualified
dependencies introduced) or is at/after V3_0 (condition qualifiers dropped),
a depends_on mapping collapses to the lexicographically sorted sequence of
its keys with the condition metadata discarded (the result is sorted under
the code-point order and is a permutation of the key list); for versions in
between it is left unchanged. -/
theorem depends_on_collapse (sd : ServiceDict) (v : Version) (d : Option String)
    (m : List (String × String)) (hm : sd.depends_on = some m) :
    ((vlt v V2_1 ∨ vle V3_0 v) →
      (denormalize_service_dict sd v d).1.depends_on
        = some (DependsOut.asList (sortedStrings (m.map Prod.fst))) ∧
      List.Sorted pyStrLe (sortedStrings (m.map Prod.fst)) ∧
      (sortedStrings (m.map Prod.fst)).Perm (m.map Prod.fst)) ∧
    (¬ (vlt v V2_1 ∨ vle V3_0 v) →
      (denormalize_service_dict sd v d).1.depends_on = some (DependsOut.asMap m)) := by
  have hb : (denormalize_service_dict sd v d).1.depends_on
      = sd.depends_on.map fun m' =>
          if vlt v V2_1 ∨ vle V3_0 v then
            DependsOut.asList (sortedStrings (m'.map Prod.fst))
          else DependsOut.asMap m' := rfl
  constructor
  · intro hc
    refine ⟨?_, List.sorted_insertionSort pyStrLe _, List.perm_insertionSort pyStrLe _⟩
    rw [hb, hm]
    simp only [Option.map_some', if_pos hc]
  · intro hc
    rw [hb, hm]
    simp only [Option.map_some', if_neg hc]

/-- A service record whose depends_on maps b and a (in that order) to
conditions. -/
def sdDep : ServiceDict :=
  ⟨"w", none, none, none, some [("b", "cond1"), ("a", "cond2")], none, none, none⟩

/-- C9 witness: the collapse theorem applied at the concrete record `sdDep`
at version V3_0 — the mapping {b: cond1, a: cond2} becomes the sorted list
[a, b]. -/
theorem depends_on_collapse_witness :
    (denormalize_service_dict sdDep V3_0 none).1.depends_on
      = some (DependsOut.asList ["a", "b"]) := by
  have h := ((depends_on_collapse sdDep V3_0 none [("b", "cond1"), ("a", "cond2")]
    rfl).1 (by decide)).1
  rw [h]
  decide

/-- C10: the external attribute of a resource-group entry is coerced to a
plain boolean exactly when the entry carries a name key that survives the
version-gated stripping rule; an entry without a name key, or whose name key
is stripped, has its external attribute passed through entirely unchanged
(in whatever form it had). -/
theorem external_coercion_gate (v : Version) (k : ResourceKind) (conf : ResourceConf) :
    ((denormalize_resource_conf v k conf).name.isSome = true →
      (denormalize_resource_conf v k conf).external
        = conf.external.map (fun e => ExtVal.boolv e.pyBool)) ∧
    ((denormalize_resource_conf v k conf).name = none →
      (denormalize_resource_conf v k conf).external = conf.external) ∧
    ((denormalize_resource_conf v k conf).name.isSome = true ↔
      conf.name.isSome = true ∧
        ¬ (vlt v V2_1 ∨ (vle V3_0 v ∧ vlt v (v3_introduced_name_key k)))) := by
  rcases conf with ⟨en, nm, ex, att⟩
  cases nm with
  | none =>
    have hval : denormalize_resource_conf v k ⟨en, none, ex, att⟩
        = if att.isSome ∧ vlt v V3_2 then
            ({ external_name := none, name := none, external := ex,
               attachable := none } : ResourceConf)
          else
            { external_name := none, name := none, external := ex,
              attachable := att } := by
      simp [denormalize_resource_conf]
    rw [hval]
    split_ifs with hatt <;> exact ⟨by simp, fun _ => rfl, by simp⟩
  | some nmv =>
    by_cases hgate : vlt v V2_1 ∨ (vle V3_0 v ∧ vlt v (v3_introduced_name_key k))
    · have hval : denormalize_resource_conf v k ⟨en, some nmv, ex, att⟩
          = if att.isSome ∧ vlt v V3_2 then
              ({ external_name := none, name := none, external := ex,
                 attachable := none } : ResourceConf)
            else
              { external_name := none, name := none, external := ex,
                attachable := att } := by
        simp [denormalize_resource_conf, hgate]
      rw [hval]
      split_ifs with hatt <;> exact ⟨by simp, fun _ => rfl, by simp [hgate]⟩
    · cases ex with
      | none =>
        have hval : denormalize_resource_conf v k ⟨en, some nmv, none, att⟩
            = if att.isSome ∧ vlt v V3_2 then
                ({ external_name := none, name := some nmv, external := none,
                   attachable := none } : ResourceConf)
              else
                { external_name := none, name := some nmv, external := none,
                  attachable := att } := by
          simp [denormalize_resource_conf, hgate]
        rw [hval]
        split_ifs with hatt <;> exact ⟨fun _ => rfl, by simp, by simp [hgate]⟩
      | some e =>
        have hval : denormalize_resource_conf v k ⟨en, some nmv, some e, att⟩
            = if att.isSome ∧ vlt v V3_2 then
                ({ external_name := none, name := some nmv,
                   external := some (ExtVal.boolv e.pyBool),
                   attachable := none } : ResourceConf)
              else
                { external_name := none, name := some nmv,
                  external := some (ExtVal.boolv e.pyBool),
                  attachable := att } := by
          simp [denormalize_resource_conf, hgate]
        rw [hval]
        split_ifs with hatt <;> exact ⟨fun _ => rfl, by simp, by simp [hgate]⟩

/-- A network entry carrying a name and a rich (string-valued) external
attribute. -/
def rcExt : ResourceConf := ⟨none, some "nm", some (.strv "x"), none⟩

/-- C10 witness: the gating theorem applied at the concrete entry `rcExt` at
version V3_5 (where the name key survives), coercing the rich external form
to a boolean. -/
theorem external_coercion_gate_witness :
    (denormalize_resource_conf V3_5 .networks rcExt).external
      = rcExt.external.map (fun e => ExtVal.boolv e.pyBool) :=
  (external_coercion_gate V3_5 .networks rcExt).1 (by decide)

end Compose
